import Mathlib

/-!
Shallow embedding of the classification and normalization engine of
`src/Globant_final.py` (a PySpark batch pipeline), together with theorems
settling the specification claims about it.

Strings are modelled as `List Char`; the Spark SQL three-valued logic on
nullable columns is modelled with `Option`; numeric columns are modelled
with `Nat` / `ℚ`.
-/

namespace Globant

/-- Java-regex `\s` character class: space, tab, newline, vertical tab,
form feed, carriage return.  Used by the whitespace-removal replacement of line 90. -/
def isWsChar (c : Char) : Bool :=
  c = ' ' || c = '\t' || c = '\n' || c = Char.ofNat 11 || c = Char.ofNat 12 || c = '\r'

/-- Regex class `[0-9]` (`\d` in the extraction patterns). -/
def isDigitChar (c : Char) : Bool :=
  decide ('0' ≤ c) && decide (c ≤ '9')

/-- Regex class `[a-zA-Z]`. -/
def isAlphaChar (c : Char) : Bool :=
  (decide ('a' ≤ c) && decide (c ≤ 'z')) || (decide ('A' ≤ c) && decide (c ≤ 'Z'))

/-- Regex class `[a-zA-Z0-9]`, the characters kept by the third cleaning
step of line 92 (replace every non-alphanumeric with the empty string). -/
def isAlnumChar (c : Char) : Bool :=
  isAlphaChar c || isDigitChar c

/-- Java-regex word character (`\w`), deciding `\b` word boundaries. -/
def isWordChar (c : Char) : Bool :=
  isAlnumChar c || c = '_'

/-- Line 90 whitespace removal — every whitespace run is replaced by
the empty string, i.e. every whitespace character is removed. -/
def removeWs (l : List Char) : List Char :=
  l.filter (fun c => !isWsChar c)

/-- Spark `trim` over the model alphabet: drop leading and trailing
whitespace.  (Line 90 applies it after all whitespace is already removed,
so there it is the identity.) -/
def trimWsL (l : List Char) : List Char :=
  ((l.dropWhile isWsChar).reverse.dropWhile isWsChar).reverse

/-- Lookahead for the lazy body `.*?` of the pattern `\(.*?\)`: is there a
`)` ahead, reachable without crossing a newline (`.` does not match
newlines)?  Only then does a match start at the current `(`. -/
def hasCloseAhead : List Char → Bool
  | [] => false
  | c :: rest =>
    if c = ')' then true
    else if c = '\n' then false
    else hasCloseAhead rest

/-- Line 91 parenthetical removal — global leftmost replacement of
the lazy pattern `\(.*?\)`.  The scanner is in skipping mode between a
matched `(` and its nearest following `)`; a `(` with no reachable `)`
starts no match and is kept. -/
def stripParensGo : Bool → List Char → List Char
  | _, [] => []
  | true, c :: rest =>
    if c = ')' then stripParensGo false rest else stripParensGo true rest
  | false, c :: rest =>
    if c = '(' && hasCloseAhead rest then stripParensGo true rest
    else c :: stripParensGo false rest

/-- The parenthetical-stripping pass of line 91. -/
def stripParens (l : List Char) : List Char :=
  stripParensGo false l

/-- Line 92 non-alphanumeric removal — keep alphanumerics only. -/
def stripNonAlnum (l : List Char) : List Char :=
  l.filter isAlnumChar

/-- The full size-token cleaning of lines 90–92: remove whitespace and
trim, strip parentheticals, strip non-alphanumerics. -/
def cleanSize (l : List Char) : List Char :=
  stripNonAlnum (stripParens (trimWsL (removeWs l)))

/-- Decimal value of a digit string, as produced by the Spark cast of the
extracted digit run to `IntegerType`. -/
def digitsVal (l : List Char) : Nat :=
  l.foldl (fun a c => a * 10 + (c.toNat - Char.toNat '0')) 0

/-- Line 95, `regexp_extract(col("size"), r"(\d+)", 1).cast(IntegerType())`:
the first (leftmost, maximal) digit run anywhere in the token, as an
integer; `none` (SQL null) when the token has no digit, since the empty
extraction result casts to null, and also `none` when the run exceeds
2^31 - 1, since the non-ANSI cast of an overflowing digit string to
`IntegerType` yields null. -/
def extractSizeNumber (l : List Char) : Option Nat :=
  if ((l.dropWhile (fun c => !isDigitChar c)).takeWhile isDigitChar).isEmpty then none
  else if 2147483647 < digitsVal ((l.dropWhile (fun c => !isDigitChar c)).takeWhile isDigitChar)
    then none
  else some (digitsVal ((l.dropWhile (fun c => !isDigitChar c)).takeWhile isDigitChar))

/-- Line 96, `regexp_extract(col("size"), r"([a-zA-Z]+)$", 1)`: the maximal
trailing alphabetic run of the token, empty when the token does not end
with a letter. -/
def extractSizeLetter (l : List Char) : List Char :=
  (l.reverse.takeWhile isAlphaChar).reverse

/-- Spark `when(cond, value)` as a column expression: `some value` when the
condition holds, SQL null otherwise. -/
def whenV (c : Bool) (v : String) : Option String :=
  if c then some v else none

/-- Spark `coalesce(e₁, …, eₙ, lit d)`: the first non-null value, else `d`. -/
def coalesceD : List (Option String) → String → String
  | [], d => d
  | some v :: _, _ => v
  | none :: rest, d => coalesceD rest d

/-- Spark `col("size_number").between(lo, hi)` under three-valued logic: a null
`size_number` yields a null condition, which `when` treats as false. -/
def betweenN (n : Option Nat) (lo hi : Nat) : Bool :=
  match n with
  | none => false
  | some m => decide (lo ≤ m) && decide (m ≤ hi)

/-- Rule `rlike "(?i)^[SMLXLXXL]+$"`: the token is a nonempty run of letters
from \x7bS,M,L,X\x7d in either case (the class `[SMLXLXXL]` deduplicates to
those four letters; `(?i)` adds the lowercase forms). -/
def tokenSMLX (s : List Char) : Bool :=
  !s.isEmpty && s.all (fun c => c ∈ ['S', 'M', 'L', 'X', 's', 'm', 'l', 'x'])

/-- Rule `rlike "(?i)^[6789]+$"`: a nonempty run of digits from \x7b6,7,8,9\x7d. -/
def token6789 (s : List Char) : Bool :=
  !s.isEmpty && s.all (fun c => c ∈ ['6', '7', '8', '9'])

/-- Rule `rlike "(?i)^[A-Z]+$"`: with the `(?i)` flag the class `[A-Z]` matches
letters of either case, so this is a nonempty run of ASCII letters. -/
def tokenLetters (s : List Char) : Bool :=
  !s.isEmpty && s.all isAlphaChar

/-- Lines 102–118: `coalesce` over the ordered `when(cond, group)` list
with default `"Unknown"` — the size classifier. -/
def sizeGroup (n : Option Nat) (s : List Char) : String :=
  coalesceD
    [ whenV (betweenN n 30 32) "Small",
      whenV (betweenN n 34 36) "Medium",
      whenV (betweenN n 38 40) "Large",
      whenV (betweenN n 42 46) "Extra Large",
      whenV (tokenSMLX s) "Not Bras",
      whenV (token6789 s) "Not Bras",
      whenV (tokenLetters s) "Not Bras" ]
    "Unknown"

/-- One exploded product-size record, with every column derived inside
`normalize_and_explode_sizes` (lines 87–120). -/
structure SizeRec where
  size : List Char
  size_number : Option Nat
  size_letter : List Char
  is_available : Nat
  size_group : String
deriving DecidableEq, Repr

/-- Derivation of one exploded record from a raw `total_sizes` entry `tok`
and the (raw, comma-split) `available_size` array: the token is cleaned,
components are extracted, and `is_available` is
`when(array_contains(available_size, size), 1).otherwise(0)` — the cleaned
token is looked up in the *uncleaned* `available_size` array (line 99). -/
def mkSizeRec (avail : List (List Char)) (tok : List Char) : SizeRec :=
  let s := cleanSize tok
  { size := s
    size_number := extractSizeNumber s
    size_letter := extractSizeLetter s
    is_available := if s ∈ avail then 1 else 0
    size_group := sizeGroup (extractSizeNumber s) s }

/-- Function `normalize_and_explode_sizes` restricted to the per-record size logic:
`explode(total_sizes)` yields one record per entry. -/
def normalize_and_explode_sizes (totals avail : List (List Char)) : List SizeRec :=
  totals.map (mkSizeRec avail)

/-- Accumulator-based splitter for `split(col, ",\s*")` (lines 75–76):
cut at each comma and drop the whitespace run that follows it.  The
Boolean records whether the scanner sits right after a comma separator
whose greedy `\s*` is still consuming whitespace. -/
def splitGo : Bool → List Char → List Char → List (List Char)
  | _, [], acc => [acc.reverse]
  | afterComma, c :: rest, acc =>
    if afterComma && isWsChar c then splitGo true rest acc
    else if c = ',' then acc.reverse :: splitGo true rest []
    else splitGo false rest (c :: acc)

/-- Function `ensure_array_columns`: `split(col, ",\s*")` on a raw size-list string. -/
def splitCommaWs (l : List Char) : List (List Char) :=
  splitGo false l []

/-- Spark `round(col, 2)` with HALF_UP rounding, on the exact rational
value; the pipeline only rounds nonnegative ratios, where HALF_UP is
`floor(x·100 + 1/2) / 100`. -/
def roundHalfUp2 (q : ℚ) : ℚ :=
  (Int.floor (q * 100 + 1 / 2) : ℚ) / 100

/-- Spark SQL division (`col / col`) under the script default (non-ANSI)
SQL mode: a zero denominator yields SQL null, never an error. -/
def divNull (a b : ℚ) : Option ℚ :=
  if b = 0 then none else some (a / b)

/-- Three-valued `col < lit`: null compares to null, which `when` treats
as false. -/
def ltNull (p : Option ℚ) (c : ℚ) : Bool :=
  match p with
  | none => false
  | some q => decide (q < c)

/-- Three-valued `col >= lit`. -/
def geNull (p : Option ℚ) (c : ℚ) : Bool :=
  match p with
  | none => false
  | some q => decide (c ≤ q)

/-- Lines 127–129: `when(p < 0.3, "Sanction").when(p < 0.5, "Warning")
.otherwise("OK")`. -/
def statusOf (p : Option ℚ) : String :=
  if ltNull p (3 / 10) then "Sanction"
  else if ltNull p (1 / 2) then "Warning"
  else "OK"

/-- Lines 130–133: the `Warning_Sanction` column — the Warning branch
(`0.3 ≤ p < 0.5`) is tested first, then the Sanction branch (`p < 0.3`),
both gated on `size_group == "Extra Large"`; otherwise the empty string. -/
def warningSanctionOf (sg : String) (p : Option ℚ) : String :=
  if sg = "Extra Large" && ltNull p (1 / 2) && geNull p (3 / 10) then "Warning"
  else if sg = "Extra Large" && ltNull p (3 / 10) then "Sanction"
  else ""

/-- The columns added by `calculate_initial_metrics` (lines 123–134);
`warning_sanction` models the `Warning_Sanction` column. -/
structure Metrics where
  total_offered_items : Nat
  available_items : Nat
  availability_percentage : Option ℚ
  status : String
  warning_sanction : String
deriving DecidableEq, Repr

/-- Function `calculate_initial_metrics`: counts are the array sizes, the
percentage is the rounded ratio (null on a zero denominator), and the two
status columns are derived from it and the `size_group` of the record. -/
def calculate_initial_metrics (totals avail : List (List Char)) (sg : String) : Metrics :=
  let t := totals.length
  let a := avail.length
  let p := (divNull (a : ℚ) (t : ℚ)).map roundHalfUp2
  { total_offered_items := t
    available_items := a
    availability_percentage := p
    status := statusOf p
    warning_sanction := warningSanctionOf sg p }

/-- ASCII apostrophe, written via its code point to keep string literals
plain. -/
def aposS : String :=
  String.singleton (Char.ofNat 39)

/-- Python `str.lower` / Spark `lower` over the ASCII brand alphabet. -/
def toLowerChar (c : Char) : Char :=
  if decide ('A' ≤ c) && decide (c ≤ 'Z') then Char.ofNat (c.toNat + 32) else c

/-- Lower-case a whole string. -/
def lowerStr (s : String) : String :=
  String.mk (s.data.map toLowerChar)

/-- Spark `trim`: drop leading and trailing spaces. -/
def trimSpaces (s : String) : String :=
  String.mk (((s.data.dropWhile (fun c => c = ' ')).reverse.dropWhile (fun c => c = ' ')).reverse)

/-- The `brand_mapping` dictionary (lines 11–36), as an association list
`(raw key, canonical brand, sub-brand)` in declaration order. -/
def brand_mapping : List (String × String × String) :=
  [ ("victoria" ++ aposS ++ "s secret", "Victoria" ++ aposS ++ "s Secret", ""),
    ("victoria" ++ aposS ++ "s secret pink", "Victoria" ++ aposS ++ "s Secret", "Pink"),
    ("us topshop", "Topshop", "Us Top Shop"),
    ("calvin klein", "Calvin Klein", ""),
    ("hanky panky", "Hanky Panky", ""),
    ("b.tempt" ++ aposS ++ "d by wacoal", "Wacoal", "b.tempt" ++ aposS ++ "d"),
    ("wacoal", "Wacoal", ""),
    ("vanity fair", "Vanity Fair", ""),
    ("calvin klein modern cotton", "Calvin Klein", "Modern Cotton"),
    ("calvin klein performance", "Calvin Klein", "Performance"),
    ("b.tempt" ++ aposS ++ "d", "Wacoal", "b.tempt" ++ aposS ++ "d"),
    ("nordstrom lingerie", "Nordstrom", ""),
    ("hankypanky", "Hanky Panky", ""),
    ("calvin-klein", "Calvin Klein", ""),
    ("b-temptd", "Wacoal", "b-temptd"),
    ("hanky-panky", "Hanky Panky", ""),
    ("victorias-secret", "Victoria" ++ aposS ++ "s Secret", ""),
    ("s", "Wacoal", ""),
    ("ref=w_bl_sl_l_b_ap_web_2603426011?ie=utf8&node=2603426011&field-lbr_brands_browse-bin=wacoal",
      "Wacoal", ""),
    ("ref=w_bl_sl_l_ap_ap_web_2586685011?ie=utf8&node=2586685011&field-lbr_brands_browse-bin=calvin+klein",
      "Calvin Klein", ""),
    ("ref=w_bl_sl_l_b_ap_web_2586451011?ie=utf8&node=2586451011&field-lbr_brands_browse-bin=b.tempt%27d",
      "Wacoal", "b-temptd"),
    ("lucky-brand", "Lucky Brand", "Lucky-Brand"),
    ("aerie", "American Eagle", "Aerie"),
    ("aeo", "American Eagle", "Aeo") ]

/-- Python `brand in brand_mapping` / `brand_mapping[brand]`: exact-key
lookup in the dictionary. -/
def lookupBrand (b : String) : Option (String × String) :=
  (brand_mapping.find? (fun e => e.1 = b)).map (fun e => e.2)

/-- Function `map_brand` (lines 39–45): lower-case the input, return the mapped
pair on a hit, otherwise the (lowered) input with an empty sub-brand. -/
def map_brand (brand : String) : String × String :=
  let b := lowerStr brand
  match lookupBrand b with
  | some p => p
  | none => (b, "")

/-- The brand pipeline of lines 250–253: `lower(trim(col))` feeds the
`map_brand` UDF. -/
def canonicalize_brand (raw : String) : String × String :=
  map_brand (lowerStr (trimSpaces raw))

/-- Case-insensitive prefix match: when `w` (lowered) is a prefix of
`rest` (lowered), return the remainder of `rest`. -/
def matchPrefixCI : List Char → List Char → Option (List Char)
  | [], rest => some rest
  | _ :: _, [] => none
  | a :: as, b :: bs =>
    if toLowerChar a = toLowerChar b then matchPrefixCI as bs else none

/-- The word `w` occurs at the head of `rest` with a `\b` boundary after
it.  (Every alternative in the category patterns begins and ends with a
word character, so the trailing `\b` holds exactly when the next character
is absent or a non-word character.) -/
def wordAtHead (w rest : List Char) : Bool :=
  match matchPrefixCI w rest with
  | none => false
  | some [] => true
  | some (c :: _) => !isWordChar c

/-- Scan of `rlike "(?i)\b(w)\b"` (find semantics): `prevOK` records
whether the previous character is absent or a non-word character, i.e.
whether a `\b` boundary precedes the current position. -/
def findWordGo (w : List Char) : Bool → List Char → Bool
  | prevOK, [] => prevOK && wordAtHead w []
  | prevOK, c :: rs => (prevOK && wordAtHead w (c :: rs)) || findWordGo w (!isWordChar c) rs

/-- Test `product_name rlike "(?i)\b(w)\b"`: the word occurs somewhere in the
name as a whole word, case-insensitively. -/
def containsWord (name w : List Char) : Bool :=
  findWordGo w true name

/-- One category pattern: either `(?i)\b(alt|…|alt)\b` with its
alternatives, or the catch-all `.*`. -/
inductive CatPattern where
  | words (alts : List String)
  | anything

/-- Test `product_name rlike pattern` for a category pattern: some alternative
occurs as a whole word; the catch-all matches every name. -/
def matchPattern : CatPattern → List Char → Bool
  | .words alts, name => alts.any (fun w => containsWord name w.data)
  | .anything, _ => true

/-- Table `category_patterns` (lines 145–154), in declaration order, with each
regex decomposed into its word alternatives. -/
def category_patterns : List (CatPattern × String) :=
  [ (.words ["bra", "push-up", "plunge", "demi", "balconette", "multi-way",
      "Embellished Underwire Bra", "bralette"], "Bras"),
    (.words ["bandeau", "triangle bralette", "bralette"], "Tops"),
    (.words ["hipster", "cheeky", "cheekster", "boyshort", "thong", "hiphugger",
      "boybrief", "v-string", "shortie", "brief", "panty", "hipkini", "cheekini",
      "tanga", "high cut brief", "high cut briefs"], "Panties"),
    (.words ["bikini"], "Bikinis"),
    (.words ["vikini", "v kini"], "Bikinis"),
    (.words ["slip", "chemise", "babydoll", "teddy", "romper", "camisole",
      "bodysuit", "bustier", "garter belt"], "Sleepwear and Lingerie"),
    (.words ["legging", "short", "jogger", "tank", "top", "hoodie", "tee",
      "shirt", "camisole", "crop", "sports bra", "shorts", "tank top"], "Tops Sport"),
    (.anything, "Other") ]

/-- The `withColumn` fold of `assign_category` (lines 156–160): for each
rule in order, `when(category.isNull() & name rlike pattern, label)
.otherwise(category)`. -/
def applyCategoryRules : List (CatPattern × String) → Option String → List Char → Option String
  | [], cat, _ => cat
  | (p, c) :: rest, cat, name =>
    applyCategoryRules rest (if cat.isNone && matchPattern p name then some c else cat) name

/-- Function `assign_category` applied to a record with no prior category (the
column is created null at lines 142–143). -/
def assign_category (name : List Char) : Option String :=
  applyCategoryRules category_patterns none name

/-- Ordered first-match evaluation of the category rule list, the shape
the specification describes. -/
def firstMatchCat : List (CatPattern × String) → List Char → Option String
  | [], _ => none
  | (p, c) :: rest, name => if matchPattern p name then some c else firstMatchCat rest name

/-- A data row with the three surrogate-key columns of lines 271–273;
ids are 0 before assignment. -/
structure Keyed (α : Type) where
  row : α
  product_id : Nat
  retailer_id : Nat
  size_id : Nat
deriving DecidableEq, Repr

/-- Wrap a row before any id column exists. -/
def mkKeyed {α : Type} (r : α) : Keyed α :=
  { row := r, product_id := 0, retailer_id := 0, size_id := 0 }

/-- Column `withColumn("product_id", row_number().over(windowSpec))`. -/
def setProductId {α : Type} (k : Keyed α) (i : Nat) : Keyed α :=
  { k with product_id := i }

/-- Column `withColumn("retailer_id", row_number().over(windowSpec))`. -/
def setRetailerId {α : Type} (k : Keyed α) (i : Nat) : Keyed α :=
  { k with retailer_id := i }

/-- Column `withColumn("size_id", row_number().over(windowSpec))`. -/
def setSizeId {α : Type} (k : Keyed α) (i : Nat) : Keyed α :=
  { k with size_id := i }

/-- Spark `row_number().over(Window.orderBy(monotonically_increasing_id()))`:
number the rows 1, 2, … in the (fixed, stable) window order, writing the
number with the given column setter. -/
def withIdFrom {α : Type} (set : Keyed α → Nat → Keyed α) : Nat → List (Keyed α) → List (Keyed α)
  | _, [] => []
  | i, k :: ks => set k i :: withIdFrom set (i + 1) ks

/-- Lines 270–273: the same `row_number` over the same window is written
into `product_id`, then `retailer_id`, then `size_id`.  The list order
models the window order `Window.orderBy(monotonically_increasing_id())`,
which is the same for all three columns. -/
def assignSurrogateIds {α : Type} (rows : List α) : List (Keyed α) :=
  withIdFrom setSizeId 1 (withIdFrom setRetailerId 1 (withIdFrom setProductId 1 (rows.map mkKeyed)))

/-- Modelled from the claim text of C4: the *leading* numeric run of the
token, absent when the token does not start with a digit.  Compared
against the `extractSizeNumber` of the source. -/
def leadingNumberRunSpec (l : List Char) : Option Nat :=
  if (l.takeWhile isDigitChar).isEmpty then none
  else some (digitsVal (l.takeWhile isDigitChar))

/-- Generic ordered first-match rule evaluation with a default, the shape
the specification describes for the classifiers. -/
def firstMatchRule {α : Type} : List ((α → Bool) × String) → String → α → String
  | [], d, _ => d
  | (p, g) :: rest, d, x => if p x then g else firstMatchRule rest d x

/-- Rule 7 as claim C2 states it: one-or-more *uppercase* letters A–Z. -/
def tokenUppercase (s : List Char) : Bool :=
  !s.isEmpty && s.all (fun c => decide ('A' ≤ c) && decide (c ≤ 'Z'))

/-- The seven classification rules exactly as claim C2 words them (rule 7
uppercase-only), as ordered first-match rules. -/
def sizeGroupClaimStated (n : Option Nat) (s : List Char) : String :=
  firstMatchRule
    [ (fun x => betweenN x.1 30 32, "Small"),
      (fun x => betweenN x.1 34 36, "Medium"),
      (fun x => betweenN x.1 38 40, "Large"),
      (fun x => betweenN x.1 42 46, "Extra Large"),
      (fun x => tokenSMLX x.2, "Not Bras"),
      (fun x => token6789 x.2, "Not Bras"),
      (fun x => tokenUppercase x.2, "Not Bras") ]
    "Unknown" ((n, s) : Option Nat × List Char)

/-- The seven classification rules with rule 7 amended to match the code:
one-or-more ASCII letters of either case. -/
def sizeGroupSpecAmended (n : Option Nat) (s : List Char) : String :=
  firstMatchRule
    [ (fun x => betweenN x.1 30 32, "Small"),
      (fun x => betweenN x.1 34 36, "Medium"),
      (fun x => betweenN x.1 38 40, "Large"),
      (fun x => betweenN x.1 42 46, "Extra Large"),
      (fun x => tokenSMLX x.2, "Not Bras"),
      (fun x => token6789 x.2, "Not Bras"),
      (fun x => tokenLetters x.2, "Not Bras") ]
    "Unknown" ((n, s) : Option Nat × List Char)

theorem uint32_le_iff (a b : UInt32) : a ≤ b ↔ a.toNat ≤ b.toNat := by
  rw [UInt32.le_def, BitVec.le_def]; rfl

theorem char_le_iff (a b : Char) : a ≤ b ↔ a.toNat ≤ b.toNat := by
  rw [Char.le_def, uint32_le_iff]; rfl

theorem charOfNat_toNat (n : Nat) (h : n.isValidChar) : (Char.ofNat n).toNat = n := by
  simp [Char.ofNat, h, Char.ofNatAux, Char.toNat]
  rfl

theorem toLowerChar_idem (c : Char) : toLowerChar (toLowerChar c) = toLowerChar c := by
  unfold toLowerChar
  by_cases h1 : 'A' ≤ c
  · by_cases h2 : c ≤ 'Z'
    · simp [h1, h2]
      have hA : (65 : Nat) ≤ c.toNat := (char_le_iff 'A' c).mp h1
      have hZ : c.toNat ≤ 90 := (char_le_iff c 'Z').mp h2
      have hvalid : (c.toNat + 32).isValidChar := by
        constructor
        omega
      have htn : (Char.ofNat (c.toNat + 32)).toNat = c.toNat + 32 := charOfNat_toNat _ hvalid
      have hnle : ¬ (Char.ofNat (c.toNat + 32) ≤ 'Z') := by
        rw [char_le_iff, htn]
        show ¬ (c.toNat + 32 ≤ 90)
        omega
      simp [hnle]
    · simp [h2]
  · simp [h1]

theorem lowerStr_idem (s : String) : lowerStr (lowerStr s) = lowerStr s := by
  unfold lowerStr
  simp [List.map_map, Function.comp_def, toLowerChar_idem]

theorem isAlnumChar_not_ws (c : Char) (h : isAlnumChar c = true) : isWsChar c = false := by
  cases hw : isWsChar c
  · rfl
  · exfalso
    simp only [isWsChar, Bool.or_eq_true, decide_eq_true_eq] at hw
    rcases hw with ((((h1 | h1) | h1) | h1) | h1) | h1 <;> subst h1 <;>
      simp [isAlnumChar, isAlphaChar, isDigitChar] at h

theorem isAlnumChar_ne_lparen (c : Char) (h : isAlnumChar c = true) : c ≠ '(' := by
  intro he
  subst he
  simp [isAlnumChar, isAlphaChar, isDigitChar] at h

theorem dropWhile_eq_self_of_all (p : Char → Bool) (l : List Char)
    (h : ∀ c ∈ l, p c = false) : l.dropWhile p = l := by
  cases l with
  | nil => rfl
  | cons c rest => simp [List.dropWhile, h c (List.mem_cons_self c rest)]

theorem removeWs_eq_self (l : List Char) (h : ∀ c ∈ l, isWsChar c = false) :
    removeWs l = l := by
  unfold removeWs
  exact List.filter_eq_self.mpr (fun c hc => by simp [h c hc])

theorem trimWsL_eq_self (l : List Char) (h : ∀ c ∈ l, isWsChar c = false) :
    trimWsL l = l := by
  unfold trimWsL
  rw [dropWhile_eq_self_of_all isWsChar l h]
  rw [dropWhile_eq_self_of_all isWsChar l.reverse (fun c hc => h c (List.mem_reverse.mp hc))]
  exact List.reverse_reverse l

theorem stripParens_eq_self (l : List Char) (h : ∀ c ∈ l, c ≠ '(') :
    stripParens l = l := by
  unfold stripParens
  induction l with
  | nil => simp [stripParensGo]
  | cons c rest ih =>
    have hc : c ≠ '(' := h c (List.mem_cons_self c rest)
    simp [stripParensGo, hc]
    exact ih (fun d hd => h d (List.mem_cons_of_mem c hd))

theorem cleanSize_all_alnum (l : List Char) :
    ∀ c ∈ cleanSize l, isAlnumChar c = true := by
  intro c hc
  exact (List.mem_filter.mp hc).2

theorem stripNonAlnum_eq_self (l : List Char) (h : ∀ c ∈ l, isAlnumChar c = true) :
    stripNonAlnum l = l :=
  List.filter_eq_self.mpr h

/-- Claim C9: the size-token cleaning of lines 90–92 is idempotent —
cleaning an already-cleaned token changes nothing, because a cleaned token
consists of alphanumeric characters only, which contain no whitespace and
no parenthesis. -/
theorem cleanSize_idempotent (l : List Char) : cleanSize (cleanSize l) = cleanSize l := by
  have halnum := cleanSize_all_alnum l
  have h1 : removeWs (cleanSize l) = cleanSize l :=
    removeWs_eq_self _ (fun c hc => isAlnumChar_not_ws c (halnum c hc))
  have h2 : trimWsL (cleanSize l) = cleanSize l :=
    trimWsL_eq_self _ (fun c hc => isAlnumChar_not_ws c (halnum c hc))
  have h3 : stripParens (cleanSize l) = cleanSize l :=
    stripParens_eq_self _ (fun c hc => isAlnumChar_ne_lparen c (halnum c hc))
  show stripNonAlnum (stripParens (trimWsL (removeWs (cleanSize l)))) = cleanSize l
  rw [h1, h2, h3]
  exact stripNonAlnum_eq_self _ halnum

theorem coalesceD_whenV_cons (b : Bool) (v : String) (rest : List (Option String))
    (d : String) :
    coalesceD (whenV b v :: rest) d = if b then v else coalesceD rest d := by
  cases b <;> simp [whenV, coalesceD]

/-- Claim C2 (amended): the size classifier of lines 102–118 is exactly
ordered first-match evaluation of the seven rules with default
`"Unknown"`, where rule 7 matches one-or-more ASCII letters of either
case (the code applies `(?i)` to `^[A-Z]+$`); and every token whose
`size_number` is 31 is classified `"Small"`. -/
theorem sizeGroup_first_match :
    (∀ (n : Option Nat) (s : List Char), sizeGroup n s = sizeGroupSpecAmended n s) ∧
    (∀ s : List Char, sizeGroup (some 31) s = "Small") := by
  constructor
  · intro n s
    simp only [sizeGroup, sizeGroupSpecAmended, coalesceD_whenV_cons, coalesceD,
      firstMatchRule]
  · intro s
    have h : betweenN (some 31) 30 32 = true := by decide
    simp [sizeGroup, coalesceD_whenV_cons, h]

/-- Claim C2 as stated is false: the cleaned token `"b"` (a single
lowercase letter) matches none of the seven rules of the claim — in particular
not rule 7 of the claim, which demands uppercase letters — so the claim
assigns `"Unknown"`; but the rule 7 regex in the code carries the `(?i)` flag,
so the code classifies the token `"Not Bras"`. -/
theorem sizeGroup_counterexample :
    cleanSize ['b'] = ['b'] ∧
    sizeGroup (extractSizeNumber ['b']) ['b'] = "Not Bras" ∧
    sizeGroupClaimStated (extractSizeNumber ['b']) ['b'] = "Unknown" := by
  refine ⟨by decide, by decide, by decide⟩

/-- Claim C1 (amended): for every exploded record, `is_available` is 1
exactly when the cleaned size token is a member of the *raw* (comma-split,
uncleaned) `available_size` array — line 99 runs `array_contains` against
`available_size` as produced by `ensure_array_columns`, whose entries are
never cleaned. -/
theorem is_available_mem_raw (totals avail : List (List Char)) (r : SizeRec)
    (hr : r ∈ normalize_and_explode_sizes totals avail) :
    r.is_available = 1 ↔ r.size ∈ avail := by
  rcases List.mem_map.mp hr with ⟨tok, _, rfl⟩
  unfold mkSizeRec
  by_cases h : cleanSize tok ∈ avail
  · simp [h]
  · simp [h]

theorem is_available_mem_raw_witness :
    (mkSizeRec [cleanSize "32B".data] "32B".data).is_available = 1 ↔
      (mkSizeRec [cleanSize "32B".data] "32B".data).size ∈ [cleanSize "32B".data] :=
  is_available_mem_raw ["32B".data] [cleanSize "32B".data]
    (mkSizeRec [cleanSize "32B".data] "32B".data)
    (by simp [normalize_and_explode_sizes])

/-- Claim C1 as stated is false: with `total_sizes = "32-B"` and
`available_size = "32-B"`, the cleaned token of the exploded record `"32B"` is
a member of the cleaned available list (both clean to `"32B"`), yet the
the `array_contains` of the code against the raw list `["32-B"]` misses, so
`is_available` is 0 where the claim requires 1. -/
theorem is_available_counterexample :
    (normalize_and_explode_sizes (splitCommaWs "32-B".data) (splitCommaWs "32-B".data)).map
        (fun r => (r.is_available, decide (r.size ∈ (splitCommaWs "32-B".data).map cleanSize)))
      = [(0, true)] := by
  decide

theorem dropWhile_append_of_all (p : Char → Bool) (a b : List Char)
    (h : ∀ c ∈ a, p c = true) : (a ++ b).dropWhile p = b.dropWhile p := by
  induction a with
  | nil => rfl
  | cons c rest ih =>
    simp only [List.cons_append, List.dropWhile, h c (List.mem_cons_self c rest)]
    exact ih (fun d hd => h d (List.mem_cons_of_mem c hd))

theorem takeWhile_append_of_all (p : Char → Bool) (a b : List Char)
    (h : ∀ c ∈ a, p c = true) : (a ++ b).takeWhile p = a ++ b.takeWhile p := by
  induction a with
  | nil => rfl
  | cons c rest ih =>
    have hc := h c (List.mem_cons_self c rest)
    have ih' := ih (fun d hd => h d (List.mem_cons_of_mem c hd))
    simp [List.takeWhile, hc, ih']

theorem takeWhile_eq_nil_of_head (p : Char → Bool) (l : List Char)
    (h : ∀ c, l.head? = some c → p c = false) : l.takeWhile p = [] := by
  cases l with
  | nil => rfl
  | cons c rest => simp [List.takeWhile, h c rfl]

/-- Claim C4 (amended): `size_number` is the *first* numeric run anywhere
in the cleaned token (line 95 extracts with the unanchored pattern
`(\d+)`) when that run fits a 32-bit signed integer; it is absent when the
token contains no digit, and also when the run overflows the non-ANSI
`IntegerType` cast (value above 2^31 - 1), which yields null;
`size_letter` is the maximal trailing alphabetic run; and a token with no
numeric and no alphabetic component yields `size_number` absent and
`size_letter` empty — the extraction functions are total and never
abort. -/
theorem size_component_extraction :
    (∀ t : List Char, (∀ c ∈ t, isDigitChar c = false) → extractSizeNumber t = none) ∧
    (∀ pre ds post : List Char,
        (∀ c ∈ pre, isDigitChar c = false) →
        ds ≠ [] →
        (∀ c ∈ ds, isDigitChar c = true) →
        (∀ c, post.head? = some c → isDigitChar c = false) →
        digitsVal ds ≤ 2147483647 →
        extractSizeNumber (pre ++ ds ++ post) = some (digitsVal ds)) ∧
    (∀ pre ds post : List Char,
        (∀ c ∈ pre, isDigitChar c = false) →
        ds ≠ [] →
        (∀ c ∈ ds, isDigitChar c = true) →
        (∀ c, post.head? = some c → isDigitChar c = false) →
        2147483647 < digitsVal ds →
        extractSizeNumber (pre ++ ds ++ post) = none) ∧
    (∀ pre suf : List Char,
        (∀ c ∈ suf, isAlphaChar c = true) →
        (∀ c, pre.getLast? = some c → isAlphaChar c = false) →
        extractSizeLetter (pre ++ suf) = suf) ∧
    (∀ t : List Char, (∀ c ∈ t, isDigitChar c = false ∧ isAlphaChar c = false) →
        extractSizeNumber t = none ∧ extractSizeLetter t = []) := by
  have hnum : ∀ t : List Char, (∀ c ∈ t, isDigitChar c = false) →
      extractSizeNumber t = none := by
    intro t h
    have hd : t.dropWhile (fun c => !isDigitChar c) = [] :=
      List.dropWhile_eq_nil_iff.mpr (fun x hx => by simp [h x hx])
    simp [extractSizeNumber, hd]
  have hletter : ∀ pre suf : List Char,
      (∀ c ∈ suf, isAlphaChar c = true) →
      (∀ c, pre.getLast? = some c → isAlphaChar c = false) →
      extractSizeLetter (pre ++ suf) = suf := by
    intro pre suf hs hp
    unfold extractSizeLetter
    rw [List.reverse_append]
    rw [takeWhile_append_of_all isAlphaChar suf.reverse pre.reverse
      (fun c hc => hs c (List.mem_reverse.mp hc))]
    rw [takeWhile_eq_nil_of_head isAlphaChar pre.reverse
      (fun c hc => hp c (by rw [← List.head?_reverse]; exact hc))]
    simp
  have hrun : ∀ (pre post : List Char) (d : Char) (ds' : List Char),
      (∀ c ∈ pre, isDigitChar c = false) →
      (∀ c ∈ d :: ds', isDigitChar c = true) →
      (∀ c, post.head? = some c → isDigitChar c = false) →
      extractSizeNumber (pre ++ (d :: ds') ++ post)
        = if 2147483647 < digitsVal (d :: ds') then none
          else some (digitsVal (d :: ds')) := by
    intro pre post d ds' hpre hds hpost
    have hd : isDigitChar d = true := hds d (List.mem_cons_self d ds')
    simp only [extractSizeNumber, List.append_assoc, List.cons_append]
    rw [dropWhile_append_of_all (fun c => !isDigitChar c) pre (d :: (ds' ++ post))
      (fun c hc => by simp [hpre c hc])]
    have hstop : List.dropWhile (fun c => !isDigitChar c) (d :: (ds' ++ post))
        = d :: (ds' ++ post) := by
      simp [List.dropWhile, hd]
    rw [hstop]
    have htw : List.takeWhile isDigitChar (d :: (ds' ++ post)) = d :: ds' := by
      have hta := takeWhile_append_of_all isDigitChar (d :: ds') post hds
      rw [takeWhile_eq_nil_of_head isDigitChar post hpost] at hta
      simpa using hta
    rw [htw]
    simp [List.isEmpty]
  refine ⟨hnum, ?_, ?_, hletter, ?_⟩
  · intro pre ds post hpre hne hds hpost hle
    obtain ⟨d, ds', rfl⟩ : ∃ d ds', ds = d :: ds' := by
      cases ds with
      | nil => exact absurd rfl hne
      | cons d ds' => exact ⟨d, ds', rfl⟩
    rw [hrun pre post d ds' hpre hds hpost, if_neg (not_lt.mpr hle)]
  · intro pre ds post hpre hne hds hpost hgt
    obtain ⟨d, ds', rfl⟩ : ∃ d ds', ds = d :: ds' := by
      cases ds with
      | nil => exact absurd rfl hne
      | cons d ds' => exact ⟨d, ds', rfl⟩
    rw [hrun pre post d ds' hpre hds hpost, if_pos hgt]
  · intro t h
    refine ⟨hnum t (fun c hc => (h c hc).1), ?_⟩
    have := hletter t [] (by simp)
      (fun c hc => (h c (List.mem_of_mem_getLast? hc)).2)
    simpa using this

theorem size_component_extraction_witness :
    extractSizeNumber ("A".data ++ "12".data ++ ([] : List Char))
        = some (digitsVal "12".data) ∧
    extractSizeNumber (([] : List Char) ++ "9999999999".data ++ ([] : List Char)) = none ∧
    extractSizeLetter ("32".data ++ "B".data) = "B".data :=
  ⟨size_component_extraction.2.1 "A".data "12".data [] (by decide) (by decide) (by decide)
      (fun c hc => by simp at hc) (by decide),
    size_component_extraction.2.2.1 [] "9999999999".data [] (by decide) (by decide) (by decide)
      (fun c hc => by simp at hc) (by decide),
    size_component_extraction.2.2.2.1 "32".data "B".data (by decide)
      (fun c hc => by
        rw [show "32".data.getLast? = some '2' from rfl] at hc
        injection hc with h2
        rw [← h2]
        decide)⟩

/-- Claim C4 as stated is false: `"A12"` is a cleaned token (cleaning
leaves it unchanged), it does not start with a digit, so the claim makes
`size_number` absent; but the unanchored `(\d+)` extraction of line 95
finds the digit run `12` and `size_number` is 12. -/
theorem size_number_counterexample :
    cleanSize "A12".data = "A12".data ∧
    extractSizeNumber "A12".data = some 12 ∧
    leadingNumberRunSpec "A12".data = none := by
  refine ⟨by decide, by decide, by decide⟩

theorem statusOf_eq_sanction_iff (q : ℚ) : statusOf (some q) = "Sanction" ↔ q < 3 / 10 := by
  simp only [statusOf, ltNull, decide_eq_true_eq]
  split_ifs with h1 h2
  · simp [h1]
  · exact ⟨fun habs => absurd habs (by decide), fun hlt => absurd hlt h1⟩
  · exact ⟨fun habs => absurd habs (by decide), fun hlt => absurd hlt h1⟩

theorem statusOf_eq_warning_iff (q : ℚ) :
    statusOf (some q) = "Warning" ↔ 3 / 10 ≤ q ∧ q < 1 / 2 := by
  simp only [statusOf, ltNull, decide_eq_true_eq]
  split_ifs with h1 h2
  · exact ⟨fun habs => absurd habs (by decide), fun hc => (not_lt.mpr hc.1 h1).elim⟩
  · exact ⟨fun _ => ⟨not_lt.mp h1, h2⟩, fun _ => rfl⟩
  · exact ⟨fun habs => absurd habs (by decide), fun hc => (h2 hc.2).elim⟩

theorem statusOf_eq_ok_iff (q : ℚ) : statusOf (some q) = "OK" ↔ 1 / 2 ≤ q := by
  simp only [statusOf, ltNull, decide_eq_true_eq]
  split_ifs with h1 h2
  · exact ⟨fun habs => absurd habs (by decide),
      fun hge => ((not_lt.mpr (by linarith : (3 : ℚ) / 10 ≤ q)) h1).elim⟩
  · exact ⟨fun habs => absurd habs (by decide), fun hge => ((not_lt.mpr hge) h2).elim⟩
  · exact ⟨fun _ => not_lt.mp h2, fun _ => rfl⟩

/-- Claim C3: with a nonzero denominator, `availability_percentage` is the
ratio `available_items / total_offered_items` rounded (HALF_UP) to two
decimals, and `status` is `"Sanction"` exactly below 0.30, `"Warning"`
exactly on `[0.30, 0.50)` (lower bound inclusive), and `"OK"` exactly from
0.50 up. -/
theorem metrics_status (totals avail : List (List Char)) (sg : String)
    (h : 0 < totals.length) :
    (calculate_initial_metrics totals avail sg).availability_percentage
        = some (roundHalfUp2 ((avail.length : ℚ) / (totals.length : ℚ))) ∧
    ((calculate_initial_metrics totals avail sg).status = "Sanction"
        ↔ roundHalfUp2 ((avail.length : ℚ) / (totals.length : ℚ)) < 3 / 10) ∧
    ((calculate_initial_metrics totals avail sg).status = "Warning"
        ↔ 3 / 10 ≤ roundHalfUp2 ((avail.length : ℚ) / (totals.length : ℚ)) ∧
          roundHalfUp2 ((avail.length : ℚ) / (totals.length : ℚ)) < 1 / 2) ∧
    ((calculate_initial_metrics totals avail sg).status = "OK"
        ↔ 1 / 2 ≤ roundHalfUp2 ((avail.length : ℚ) / (totals.length : ℚ))) := by
  have ht : ((totals.length : ℚ)) ≠ 0 := by
    have hne : totals.length ≠ 0 := by omega
    exact_mod_cast hne
  have hp : (calculate_initial_metrics totals avail sg).availability_percentage
      = some (roundHalfUp2 ((avail.length : ℚ) / (totals.length : ℚ))) := by
    simp [calculate_initial_metrics, divNull, ht]
  have hst : (calculate_initial_metrics totals avail sg).status
      = statusOf (some (roundHalfUp2 ((avail.length : ℚ) / (totals.length : ℚ)))) := by
    simp [calculate_initial_metrics, divNull, ht]
  refine ⟨hp, ?_, ?_, ?_⟩
  · rw [hst]; exact statusOf_eq_sanction_iff _
  · rw [hst]; exact statusOf_eq_warning_iff _
  · rw [hst]; exact statusOf_eq_ok_iff _

theorem metrics_status_witness :
    (calculate_initial_metrics (List.replicate 10 (['x'] : List Char))
        (List.replicate 3 (['x'] : List Char)) "Bras").availability_percentage
      = some (3 / 10) ∧
    (calculate_initial_metrics (List.replicate 10 (['x'] : List Char))
        (List.replicate 3 (['x'] : List Char)) "Bras").status = "Warning" := by
  have h := metrics_status (List.replicate 10 (['x'] : List Char))
    (List.replicate 3 (['x'] : List Char)) "Bras" (by simp)
  have hr : roundHalfUp2 (((List.replicate 3 (['x'] : List Char)).length : ℚ)
      / ((List.replicate 10 (['x'] : List Char)).length : ℚ)) = 3 / 10 := by
    simp only [List.length_replicate]
    unfold roundHalfUp2
    have hf : (Int.floor ((3 : ℚ) / 10 * 100 + 1 / 2) : ℤ) = 30 := by
      rw [Int.floor_eq_iff]
      constructor <;> norm_num
    push_cast [hf]
    norm_num
  constructor
  · rw [h.1, hr]
  · exact h.2.2.1.mpr (by rw [hr]; norm_num)

/-- Claim C7: `Warning_Sanction` uses the same two thresholds as `status`
(`< 0.30` Sanction, `[0.30, 0.50)` Warning) but is set only when
`size_group` is `"Extra Large"` and is empty otherwise; it is a function
of `size_group` and the availability percentage only, computed
independently of `status`, and both columns sit in the record. -/
theorem warning_sanction_extra_large :
    (∀ (sg : String) (p : Option ℚ), sg ≠ "Extra Large" → warningSanctionOf sg p = "") ∧
    (∀ q : ℚ, warningSanctionOf "Extra Large" (some q)
        = (if q < 3 / 10 then "Sanction" else if q < 1 / 2 then "Warning" else "")) ∧
    (∀ (totals avail : List (List Char)) (sg : String),
        (calculate_initial_metrics totals avail sg).warning_sanction
          = warningSanctionOf sg
              ((calculate_initial_metrics totals avail sg).availability_percentage)) := by
  have hsg : decide (("Extra Large" : String) = "Extra Large") = true := by decide
  refine ⟨?_, ?_, fun totals avail sg => rfl⟩
  · intro sg p h
    simp [warningSanctionOf, h]
  · intro q
    simp only [warningSanctionOf, ltNull, geNull]
    by_cases h1 : q < 3 / 10
    · have d1 : decide (q < 3 / 10) = true := decide_eq_true h1
      have d2 : decide (q < 1 / 2) = true := decide_eq_true (by linarith)
      have d3 : decide ((3 : ℚ) / 10 ≤ q) = false := decide_eq_false (not_le.mpr h1)
      simp only [hsg, d1, d2, d3, Bool.and_true, Bool.and_false, Bool.true_and,
        Bool.false_and, if_true, if_false]
      rw [if_pos h1]
      decide
    · by_cases h2 : q < 1 / 2
      · have d1 : decide (q < 3 / 10) = false := decide_eq_false h1
        have d2 : decide (q < 1 / 2) = true := decide_eq_true h2
        have d3 : decide ((3 : ℚ) / 10 ≤ q) = true := decide_eq_true (not_lt.mp h1)
        simp only [hsg, d1, d2, d3, Bool.and_true, Bool.and_false, Bool.true_and,
          Bool.false_and, if_true, if_false]
        rw [if_neg h1, if_pos h2]
        decide
      · have d1 : decide (q < 3 / 10) = false := decide_eq_false h1
        have d2 : decide (q < 1 / 2) = false := decide_eq_false h2
        have d3 : decide ((3 : ℚ) / 10 ≤ q) = true := decide_eq_true (not_lt.mp h1)
        simp only [hsg, d1, d2, d3, Bool.and_true, Bool.and_false, Bool.true_and,
          Bool.false_and, if_true, if_false]
        rw [if_neg h1, if_neg h2]
        decide

theorem warning_sanction_extra_large_witness :
    warningSanctionOf "Bras" none = "" ∧
    warningSanctionOf "Extra Large" (some (3 / 10))
      = (if (3 : ℚ) / 10 < 3 / 10 then "Sanction"
         else if (3 : ℚ) / 10 < 1 / 2 then "Warning" else "") :=
  ⟨warning_sanction_extra_large.1 "Bras" none (by decide),
    warning_sanction_extra_large.2.1 (3 / 10)⟩

/-- Claim C8 (amended): with `total_offered_items = 0` the division does
not raise — under the script default (non-ANSI) Spark SQL mode it
yields null — so `availability_percentage` is null, both `when`
conditions of `status` are null and fall through to `"OK"`, and
`Warning_Sanction` is empty.  The pipeline keeps running. -/
theorem zero_denominator_yields_null (avail : List (List Char)) (sg : String) :
    (calculate_initial_metrics [] avail sg).availability_percentage = none ∧
    (calculate_initial_metrics [] avail sg).status = "OK" ∧
    (calculate_initial_metrics [] avail sg).warning_sanction = "" := by
  refine ⟨?_, ?_, ?_⟩ <;>
    simp [calculate_initial_metrics, divNull, statusOf, warningSanctionOf, ltNull, geNull]

/-- Claim C8 as stated is false at `total_offered_items = 0`: the metrics
computation completes and produces a record (null percentage, status
`"OK"`) instead of raising a DivisionByZero error. -/
theorem division_by_zero_counterexample :
    (calculate_initial_metrics ([] : List (List Char)) ([] : List (List Char))
        "Extra Large").availability_percentage = none ∧
    (calculate_initial_metrics ([] : List (List Char)) ([] : List (List Char))
        "Extra Large").status = "OK" ∧
    (calculate_initial_metrics ([] : List (List Char)) ([] : List (List Char))
        "Extra Large").warning_sanction = "" := by
  refine ⟨rfl, rfl, rfl⟩

/-- Claim C5: brand canonicalization lower-cases and trims the raw brand,
then performs an exact lookup in `brand_mapping`: a mapped variant returns
its table pair (the raw brand B.TEMPT + apostrophe + D maps to the Wacoal pair), and an
unmapped brand passes through (in normalized form) with an empty
sub-brand (`"unknown brand xyz"` stays itself). -/
theorem brand_canonicalization :
    (canonicalize_brand ("B.TEMPT" ++ aposS ++ "D") = ("Wacoal", "b.tempt" ++ aposS ++ "d")) ∧
    (canonicalize_brand "unknown brand xyz" = ("unknown brand xyz", "")) ∧
    (∀ raw : String, lookupBrand (lowerStr (trimSpaces raw)) = none →
        canonicalize_brand raw = (lowerStr (trimSpaces raw), "")) ∧
    (∀ (raw : String) (p : String × String), lookupBrand (lowerStr (trimSpaces raw)) = some p →
        canonicalize_brand raw = p) := by
  have hkey : ∀ raw : String, lowerStr (lowerStr (trimSpaces raw)) = lowerStr (trimSpaces raw) :=
    fun raw => lowerStr_idem _
  refine ⟨by decide, by decide, ?_, ?_⟩
  · intro raw h
    simp only [canonicalize_brand, map_brand]
    rw [hkey raw, h]
  · intro raw p h
    simp only [canonicalize_brand, map_brand]
    rw [hkey raw, h]

theorem brand_canonicalization_witness :
    canonicalize_brand "ZZZ Nothing" = ("zzz nothing", "") ∧
    canonicalize_brand " Aerie " = ("American Eagle", "Aerie") := by
  constructor
  · have h := brand_canonicalization.2.2.1 "ZZZ Nothing" (by decide)
    rw [h]
    decide
  · exact brand_canonicalization.2.2.2 " Aerie " ("American Eagle", "Aerie") (by decide)

theorem applyCategoryRules_some (rules : List (CatPattern × String)) (name : List Char)
    (c : String) : applyCategoryRules rules (some c) name = some c := by
  induction rules with
  | nil => rfl
  | cons r rest ih =>
    obtain ⟨p, lab⟩ := r
    simp [applyCategoryRules, ih]

theorem applyCategoryRules_none (rules : List (CatPattern × String)) (name : List Char) :
    applyCategoryRules rules none name = firstMatchCat rules name := by
  induction rules with
  | nil => rfl
  | cons r rest ih =>
    obtain ⟨p, lab⟩ := r
    by_cases hm : matchPattern p name
    · simp [applyCategoryRules, firstMatchCat, hm, applyCategoryRules_some]
    · simp [applyCategoryRules, firstMatchCat, hm, ih]

theorem firstMatchCat_append (l1 l2 : List (CatPattern × String)) (name : List Char) :
    firstMatchCat (l1 ++ l2) name
      = match firstMatchCat l1 name with
        | some c => some c
        | none => firstMatchCat l2 name := by
  induction l1 with
  | nil => rfl
  | cons r rest ih =>
    obtain ⟨p, lab⟩ := r
    by_cases hm : matchPattern p name
    · simp [firstMatchCat, hm]
    · simp [firstMatchCat, hm, ih]

/-- Claim C6: category assignment is ordered first-match evaluation of the
`category_patterns` rules with case-insensitive whole-word matching — the
`when(category.isNull() & …)` fold never overwrites an assigned category,
so it equals first-match; any name containing the whole word `"bra"` gets
`"Bras"` (the first rule), never a later label such as `"Tops Sport"`;
and when none of the seven word rules matches, the catch-all assigns
`"Other"`. -/
theorem assign_category_first_match :
    (∀ name : List Char, assign_category name = firstMatchCat category_patterns name) ∧
    (∀ name : List Char, containsWord name "bra".data = true →
        assign_category name = some "Bras") ∧
    (∀ name : List Char, firstMatchCat (category_patterns.take 7) name = none →
        assign_category name = some "Other") := by
  have h1 : ∀ name : List Char, assign_category name = firstMatchCat category_patterns name :=
    fun name => applyCategoryRules_none _ _
  refine ⟨h1, ?_, ?_⟩
  · intro name hw
    rw [h1]
    have hm : List.any ["bra", "push-up", "plunge", "demi", "balconette", "multi-way",
        "Embellished Underwire Bra", "bralette"] (fun w => containsWord name w.data) = true :=
      List.any_eq_true.mpr ⟨"bra", by simp, hw⟩
    simp only [category_patterns, firstMatchCat, matchPattern, hm, if_true]
  · intro name h7
    rw [h1]
    have hsplit : category_patterns
        = category_patterns.take 7 ++ [(CatPattern.anything, "Other")] := rfl
    rw [hsplit, firstMatchCat_append, h7]
    rfl

theorem assign_category_first_match_witness :
    assign_category "bra legging".data = some "Bras" :=
  assign_category_first_match.2.1 "bra legging".data (by decide)

theorem withIdFrom_triple_mem {α : Type} :
    ∀ (ks : List (Keyed α)) (i : Nat) (k : Keyed α),
      k ∈ withIdFrom setSizeId i (withIdFrom setRetailerId i (withIdFrom setProductId i ks)) →
      k.product_id = k.retailer_id ∧ k.retailer_id = k.size_id := by
  intro ks
  induction ks with
  | nil => intro i k h; simp [withIdFrom] at h
  | cons a rest ih =>
    intro i k h
    simp only [withIdFrom] at h
    rcases List.mem_cons.mp h with hk | hk
    · subst hk; exact ⟨rfl, rfl⟩
    · exact ih (i + 1) k hk

theorem withIdFrom_triple_map {α : Type} :
    ∀ (ks : List (Keyed α)) (i : Nat),
      (withIdFrom setSizeId i (withIdFrom setRetailerId i
          (withIdFrom setProductId i ks))).map (fun k => k.product_id)
        = List.range' i ks.length := by
  intro ks
  induction ks with
  | nil => intro i; rfl
  | cons a rest ih =>
    intro i
    simp only [withIdFrom, List.map_cons, List.length_cons, List.range']
    rw [ih (i + 1)]
    rfl

/-- Claim C10: the three surrogate keys of lines 271–273 are assigned by
the same `row_number` over the same window ordering, so on every row
`product_id = retailer_id = size_id`, and the shared sequence is the
dense run `1, 2, …, N` over the batch. -/
theorem surrogate_ids_coincide {α : Type} (rows : List α) :
    (∀ k ∈ assignSurrogateIds rows,
        k.product_id = k.retailer_id ∧ k.retailer_id = k.size_id) ∧
    (assignSurrogateIds rows).map (fun k => k.product_id) = List.range' 1 rows.length := by
  constructor
  · intro k hk
    exact withIdFrom_triple_mem (rows.map mkKeyed) 1 k hk
  · have h := withIdFrom_triple_map (rows.map mkKeyed) 1
    simpa [assignSurrogateIds] using h

theorem surrogate_ids_coincide_witness :
    ({ row := 0, product_id := 1, retailer_id := 1, size_id := 1 } : Keyed Nat).product_id
        = ({ row := 0, product_id := 1, retailer_id := 1, size_id := 1 } : Keyed Nat).retailer_id ∧
    ({ row := 0, product_id := 1, retailer_id := 1, size_id := 1 } : Keyed Nat).retailer_id
        = ({ row := 0, product_id := 1, retailer_id := 1, size_id := 1 } : Keyed Nat).size_id :=
  (surrogate_ids_coincide [0, 1]).1
    { row := 0, product_id := 1, retailer_id := 1, size_id := 1 } (by decide)

end Globant
